import Mathlib

/-!
Shallow embedding of the build-orchestration core of `vite-components-lib`.

The repository's build-relevant code is `vite.config.ts` (entry discovery via
`glob.sync("lib/**/*.{ts,tsx}")`, the rollup `input` map built with
`Object.fromEntries`, the `external` list, the `output.assetFileNames` and
`output.entryFileNames` templates) together with the `package.json` fragments
recorded in the repository's README (the `"build": "tsc --p ./tsconfig-build.json
&& vite build"` script and the `"sideEffects": ["**/*.css"]` declaration).
Path manipulation mirrors Node's `path` module (`extname`, `relative`) on the
inputs the config actually feeds them.
-/

namespace ViteLib

/-! ### Path helpers (Node `path.extname`, basename, `path.relative("lib", ·)`)

All character-level work is done on `List Char` so that concrete evaluation
reduces well in the kernel; `String` wrappers are applied at the edges. -/

/-- Characters of the base name: everything after the last `/`. -/
def basenameCs (p : List Char) : List Char :=
  ((p.reverse.takeWhile (fun c => c ≠ '/')).reverse)

/-- Node `path.extname` on a base name: the substring from the last `.`,
empty when there is no dot or the only dot is the first character
(dotfiles such as `.css` have no extension). -/
def extCs (b : List Char) : List Char :=
  let r := b.reverse
  let pre := r.takeWhile (fun c => c ≠ '.')
  if pre.length = r.length then []
  else if pre.length + 1 = r.length then []
  else '.' :: pre.reverse

/-- Node `path.extname` of a path. -/
def extnameOf (p : String) : String :=
  String.mk (extCs (basenameCs p.data))

/-- Base name of a path with its extension removed: the `[name]` placeholder
of rollup's `assetFileNames`. -/
def stemOf (p : String) : String :=
  let b := basenameCs p.data
  String.mk (b.take (b.length - (extCs b).length))

/-- The config's `file.slice(0, file.length - extname(file).length)`:
the path with its extension stripped. -/
def stripExt (f : String) : String :=
  String.mk (f.data.take (f.data.length - (extCs (basenameCs f.data)).length))

/-- Node `path.relative("lib", ·)` restricted to the paths the config feeds it:
every `glob.sync("lib/**/*.{ts,tsx}")` match starts with `lib/`, and stripping
that prefix is what `relative` computes there. -/
def relativeLib (p : String) : String :=
  if p.data.take 4 = "lib/".data then String.mk (p.data.drop 4) else p

/-- The rollup input key the config computes for a matched file:
`relative("lib", file.slice(0, file.length - extname(file).length))`. -/
def entryKey (f : String) : String :=
  relativeLib (stripExt f)

/-- Model of `fileURLToPath(new URL(file, import.meta.url))`: the matched
relative path resolved against the project root. -/
def absPath (f : String) : String :=
  "/repo/" ++ f

/-! ### `Object.fromEntries` (JavaScript semantics)

Keys appear in first-insertion order; a repeated key keeps its first position
but receives the value of its **last** occurrence. Collisions are silent. -/

/-- First-occurrence deduplication: the order JavaScript object keys keep. -/
def dedupFirst : List String → List String
  | [] => []
  | x :: xs => x :: (dedupFirst xs).filter (fun y => y ≠ x)

/-- Keys of the resulting object, in first-insertion order. -/
def objKeys (l : List (String × String)) : List String :=
  dedupFirst (l.map Prod.fst)

/-- Value stored under a key: the value of the key's last occurrence. -/
def objGet (l : List (String × String)) (k : String) : Option String :=
  ((l.filter (fun e => e.1 == k)).getLast?).map Prod.snd

/-- JavaScript `Object.fromEntries` as an ordered association list. -/
def fromEntries (l : List (String × String)) : List (String × String) :=
  (objKeys l).filterMap (fun k => (objGet l k).map (fun v => (k, v)))

/-- The config's rollup `input` object, as a function of the list of files
`glob.sync` returned (in glob's traversal order). -/
def entryMap (files : List String) : List (String × String) :=
  fromEntries (files.map (fun f => (entryKey f, absPath f)))

/-- The discovered entry names, in the order the `input` object records them. -/
def discoveredKeys (files : List String) : List String :=
  (entryMap files).map Prod.fst

/-! ### Dependency classifier (`rollupOptions.external`) -/

/-- The configured `external` list: `["react", "react-dom", "react/jsx-runtime"]`. -/
def externals : List String :=
  ["react", "react-dom", "react/jsx-runtime"]

/-- Classification of an import identifier. -/
inductive Dep where
  | bundle
  | external
deriving DecidableEq, Repr

/-- Rollup classifies a string `external` entry by exact match against the
imported identifier; everything else is bundled. -/
def classify (id : String) : Dep :=
  if externals.contains id then Dep.external else Dep.bundle

/-- Classification as seen while compiling a given entry: the `external`
option is a single build-wide list, so the entry is not consulted. -/
def classifyFor (_entry : String) (id : String) : Dep :=
  classify id

/-! ### Output naming (`rollupOptions.output`) and side-effect declaration -/

/-- `entryFileNames: "[name].js"`. -/
def outFile (key : String) : String :=
  key ++ ".js"

/-- `assetFileNames: "assets/[name][extname]"`: the emitted asset path uses
only the source file's base name and extension, never its directory. -/
def assetPathFor (src : String) : String :=
  "assets/" ++ stemOf src ++ extnameOf src

/-- The `package.json` `sideEffects` declaration: the constant `["**/*.css"]`. -/
def sideEffects : List String :=
  ["**/*.css"]

/-- Whether the trailing characters of `s` are exactly `t`. -/
def endsWithCs (s t : List Char) : Bool :=
  s.drop (s.length - t.length) == t

/-- Matching of one `sideEffects` glob against a path. Modelled from the spec:
the bundler-side interpretation of the `sideEffects` field is not in this
repository; a `**/*.css` pattern (`**/` spanning zero or more directories,
`*` spanning within a segment) accepts exactly the paths ending in `.css`,
and any other pattern is taken literally. -/
def globMatches (g p : String) : Bool :=
  if g == "**/*.css" then endsWithCs p.data ".css".data else g == p

/-- Whether a path is matched by at least one entry of `sideEffects`. -/
def sideEffectsMatch (p : String) : Bool :=
  sideEffects.any (fun g => globMatches g p)

/-! ### The library's modules

`lib/` holds the umbrella entry `main.ts` (re-exporting `Button` and `Text`)
and the two components, each importing its own `styles.module.css`. The glob
makes every one of these files a rollup input. Import specifiers are recorded
already resolved to logical entry names for in-tree modules and verbatim for
bare identifiers. -/

/-- A source module of `lib/`, as the compiler sees it: its logical name, its
file, its module imports, its bound stylesheet if any, and whether `tsc`
rejects it (used to model the failure policy of the build script). -/
structure LibModule where
  name : String
  srcFile : String
  imports : List String
  boundStyle : Option String
  hasTypeErr : Bool
deriving DecidableEq, Repr

/-- `lib/main.ts`: the umbrella module re-exporting every component. -/
def mainModule : LibModule :=
  { name := "main"
    srcFile := "lib/main.ts"
    imports := ["components/Button/index", "components/Text/index"]
    boundStyle := none
    hasTypeErr := false }

/-- `lib/components/Button/index.tsx`: imports `react` (for
`ButtonHTMLAttributes`), the JSX runtime, and its scoped stylesheet. -/
def buttonModule : LibModule :=
  { name := "components/Button/index"
    srcFile := "lib/components/Button/index.tsx"
    imports := ["react", "react/jsx-runtime"]
    boundStyle := some "lib/components/Button/styles.module.css"
    hasTypeErr := false }

/-- `lib/components/Text/index.tsx`: imports the JSX runtime and its scoped
stylesheet. -/
def textModule : LibModule :=
  { name := "components/Text/index"
    srcFile := "lib/components/Text/index.tsx"
    imports := ["react/jsx-runtime"]
    boundStyle := some "lib/components/Text/styles.module.css"
    hasTypeErr := false }

/-- The repository's source tree. -/
def repoModules : List LibModule :=
  [mainModule, buttonModule, textModule]

/-- Look up a module of a tree by logical name. -/
def findModule (ms : List LibModule) (n : String) : Option LibModule :=
  ms.find? (fun m => m.name == n)

/-- A module's bundled (internal) imports: the specifiers the classifier does
not mark external. -/
def internalImports (m : LibModule) : List String :=
  m.imports.filter (fun i => classify i ≠ Dep.external)

/-! ### Chunk assignment

Every `lib/**/*.{ts,tsx}` file is registered as a rollup input, so every
module is an entry and code splitting gives each entry its own chunk; an
internal import becomes an import of the target module's chunk. Modelled from
the spec for the case this configuration never produces: a module that is not
an input would be placed in a shared chunk named after it. -/

/-- The chunk a module's code lands in. -/
def chunkOf (entries : List String) (n : String) : String :=
  if entries.contains n then n else "_shared/" ++ n

/-- A statement of a compiled output module. -/
inductive Stmt where
  | importCss (path : String)
  | importExt (id : String)
  | importChunk (name : String)
  | code (tag : String)
deriving DecidableEq, Repr

/-- The compiled output module for one entry. Modelled from the spec:
`vite-plugin-lib-inject-css` prepends one unconditional import of the chunk's
emitted style asset when the chunk has one, and touches nothing else; the
remaining statements mirror the module's imports, rewritten per classifier
and chunk assignment. -/
def emitChunk (entries : List String) (m : LibModule) : List Stmt :=
  (match m.boundStyle with
    | some p => [Stmt.importCss (assetPathFor p)]
    | none => [])
  ++ m.imports.map (fun i =>
      if classify i = Dep.external then Stmt.importExt i
      else Stmt.importChunk (chunkOf entries i))
  ++ [Stmt.code m.name]

/-- The style-asset imports of a compiled output module. -/
def cssImports (stmts : List Stmt) : List String :=
  stmts.filterMap (fun s =>
    match s with
    | Stmt.importCss p => some p
    | _ => none)

/-- The style assets emitted for one module: exactly one per bound
stylesheet, none otherwise (the content stands for the scoped compiled
rules, an external collaborator). -/
def moduleAssets (m : LibModule) : List (String × String) :=
  match m.boundStyle with
  | some p => [(assetPathFor p, "scoped-css:" ++ p)]
  | none => []

/-! ### Import reachability in source and in output -/

/-- Fuel-bounded transitive reachability along an adjacency function:
`hits adj fuel a b` holds when `b` is reachable from `a` in at least one and
at most `fuel` steps. -/
def hits (adj : String → List String) : Nat → String → String → Bool
  | 0, _, _ => false
  | fuel + 1, cur, tgt =>
      (adj cur).any (fun n => n == tgt || hits adj fuel n tgt)

/-- Source-level internal adjacency of a tree. -/
def srcAdj (ms : List LibModule) (n : String) : List String :=
  match findModule ms n with
  | some m => internalImports m
  | none => []

/-- Output-level adjacency: the chunks a module's chunk imports. -/
def outAdj (ms : List LibModule) (entries : List String) (n : String) : List String :=
  match findModule ms n with
  | some m => (internalImports m).map (chunkOf entries)
  | none => []

/-- The entry names the config registers for a tree: the keys of the rollup
`input` object built from the tree's files. -/
def treeEntries (ms : List LibModule) : List String :=
  discoveredKeys (ms.map (fun m => m.srcFile))

/-- Whether entry `a`'s compiled output module transitively imports entry
`b`'s compiled output module, in the repository's tree. -/
def outReaches (a b : String) : Bool :=
  hits (outAdj repoModules (treeEntries repoModules)) repoModules.length a b

/-- Whether module `a` transitively imports module `b` in the source tree. -/
def srcReaches (a b : String) : Bool :=
  hits (srcAdj repoModules) repoModules.length a b

/-- The logical names of the repository's modules. -/
def repoNames : List String :=
  repoModules.map LibModule.name

/-! ### The build script

`package.json` runs `"build": "tsc --p ./tsconfig-build.json && vite build"`:
the whole-tree type check runs first and `&&` stops the line when it fails,
so `vite build` never runs and nothing is emitted. -/

/-- Errors the build script can end with. Modelled from the spec: `tsc`
rejects a tree exactly when some file has a type or syntax error. -/
inductive BuildErr where
  | typeCheck
deriving DecidableEq, Repr

/-- The whole-tree `tsc` pass: succeeds exactly when no file is rejected. -/
def tscCheck (ms : List LibModule) : Bool :=
  ms.all (fun m => !m.hasTypeErr)

/-- Rendering of one output statement to text. -/
def renderStmt : Stmt → String
  | Stmt.importCss p => "import \"./" ++ p ++ "\";"
  | Stmt.importExt id => "import \"" ++ id ++ "\";"
  | Stmt.importChunk n => "import \"./" ++ outFile n ++ "\";"
  | Stmt.code tag => "/* code of " ++ tag ++ " */"

/-- Rendering of a compiled output module to file content. -/
def renderChunk (stmts : List Stmt) : String :=
  String.intercalate "\n" (stmts.map renderStmt)

/-- The manifest content the build leaves behind: the constant `sideEffects`
declaration of `package.json`. -/
def manifestContent : String :=
  "sideEffects:" ++ String.intercalate "," sideEffects

/-- The modules rollup actually compiles: the values of the `input` object,
resolved back to their source modules. A key two files collapsed onto holds
only its last file, so only that file's module is compiled. -/
def inputModules (ms : List LibModule) : List LibModule :=
  (entryMap (ms.map (fun m => m.srcFile))).filterMap
    (fun kv => ms.find? (fun m => absPath m.srcFile == kv.2))

/-- `vite build` output for a tree: the manifest, one `[name].js` file per
entry of the `input` object, and the style assets, as (path, content) pairs. -/
def viteBuild (ms : List LibModule) : List (String × String) :=
  let entries := treeEntries ms
  ("package.json", manifestContent)
    :: (inputModules ms).map
        (fun m => (outFile m.name, renderChunk (emitChunk entries m)))
    ++ ((inputModules ms).map moduleAssets).flatten

/-- The paths of the style assets a build of `ms` emits. -/
def emittedAssetPaths (ms : List LibModule) : List String :=
  (((inputModules ms).map moduleAssets).flatten).map Prod.fst

/-- The build script: `tsc && vite build`. A failing check aborts the line
before `vite build` runs, so an error produces no output files at all. -/
def runBuildScript (ms : List LibModule) : Except BuildErr (List (String × String)) :=
  if tscCheck ms then Except.ok (viteBuild ms) else Except.error BuildErr.typeCheck

/-- The environment a build invocation runs in. Modelled from the spec:
the wall clock and any randomness source the toolchain could in principle
consult; the config embeds neither (no `[hash]` in the file-name templates,
a constant manifest), which the build function's independence of this
parameter expresses. -/
structure BuildEnv where
  timeNow : Nat
  randomSeed : Nat
deriving DecidableEq, Repr

/-- One build invocation in a given environment. -/
def buildRun (_env : BuildEnv) (ms : List LibModule) : Except BuildErr (List (String × String)) :=
  runBuildScript ms

/-! ### Fixture trees for the naming-collision and failure policies -/

/-- A tree whose two files both strip to the logical name `Button`
(`extname` removes `.ts` and `.tsx` alike). -/
def collisionFiles : List String :=
  ["lib/Button.ts", "lib/Button.tsx"]

/-- The module of `lib/Button.ts`. -/
def collisionTsModule : LibModule :=
  { name := "Button", srcFile := "lib/Button.ts", imports := []
    boundStyle := none, hasTypeErr := false }

/-- The module of `lib/Button.tsx`. -/
def collisionTsxModule : LibModule :=
  { name := "Button", srcFile := "lib/Button.tsx", imports := []
    boundStyle := none, hasTypeErr := false }

/-- The colliding source tree. -/
def collisionTree : List LibModule :=
  [collisionTsModule, collisionTsxModule]

/-- A module `tsc` rejects. -/
def brokenModule : LibModule :=
  { name := "broken", srcFile := "lib/broken.ts", imports := []
    boundStyle := none, hasTypeErr := true }

/-! ### Path ordering (for stating the discovery-order property) -/

/-- Lexicographic comparison of paths, character by character. -/
def strLeCs : List Char → List Char → Bool
  | [], _ => true
  | _ :: _, [] => false
  | a :: as, b :: bs => if a = b then strLeCs as bs else decide (a < b)

/-- Whether a list of paths is in nondecreasing lexicographic order. -/
def pathsSorted : List String → Bool
  | [] => true
  | [_] => true
  | a :: b :: rest => strLeCs a.data b.data && pathsSorted (b :: rest)

/-! ## Helper lemmas -/

/-- A list always ends with its own appended tail. -/
theorem endsWithCs_append (s t : List Char) : endsWithCs (s ++ t) t = true := by
  simp [endsWithCs, List.length_append, Nat.add_sub_cancel, List.drop_left]

/-- Any asset built from a `.css` source is matched by the `sideEffects`
declaration. -/
theorem sideEffectsMatch_assetPath (p : String) (h : extnameOf p = ".css") :
    sideEffectsMatch (assetPathFor p) = true := by
  have hd : (assetPathFor p).data
      = ("assets/".data ++ (stemOf p).data) ++ ".css".data := by
    rw [assetPathFor, h, String.data_append, String.data_append]
  have he : endsWithCs (assetPathFor p).data ".css".data = true := by
    rw [hd]
    exact endsWithCs_append _ _
  rw [sideEffectsMatch, sideEffects]
  simp only [List.any_cons, List.any_nil, Bool.or_false]
  rw [globMatches, if_pos (beq_self_eq_true "**/*.css")]
  exact he

/-- `cssImports` distributes over statement concatenation. -/
theorem cssImports_append (a b : List Stmt) :
    cssImports (a ++ b) = cssImports a ++ cssImports b := by
  simp [cssImports, List.filterMap_append]

/-- The statements compiled from a module's imports carry no style import:
every import rewrites to an external or a chunk import. -/
theorem cssImports_ofImports (entries : List String) (l : List String) :
    cssImports (l.map (fun i =>
      if classify i = Dep.external then Stmt.importExt i
      else Stmt.importChunk (chunkOf entries i))) = [] := by
  rw [cssImports, List.filterMap_map, List.filterMap_eq_nil_iff]
  intro i _
  by_cases hc : classify i = Dep.external <;> simp [Function.comp, hc]

/-- Membership in the deduplicated list implies membership in the original. -/
theorem mem_of_mem_dedupFirst {x : String} {l : List String}
    (h : x ∈ dedupFirst l) : x ∈ l := by
  induction l with
  | nil => simp [dedupFirst] at h
  | cons a as ih =>
    rw [dedupFirst] at h
    rcases List.mem_cons.mp h with h | h
    · exact h ▸ List.mem_cons_self a as
    · exact List.mem_cons_of_mem a (ih (List.mem_filter.mp h).1)

/-- A key with some occurrence in the association list has a value. -/
theorem objGet_isSome_of_mem_fst (l : List (String × String)) (k : String)
    (h : k ∈ l.map Prod.fst) : (objGet l k).isSome = true := by
  obtain ⟨e, he, hek⟩ := List.mem_map.mp h
  have hmem : e ∈ l.filter (fun x => x.1 == k) :=
    List.mem_filter.mpr ⟨he, by simp [hek]⟩
  have hne : l.filter (fun x => x.1 == k) ≠ [] := List.ne_nil_of_mem hmem
  rw [objGet]
  simpa [Option.isSome_map] using List.getLast?_isSome.mpr hne

/-- A `filterMap` whose function keeps every member unchanged is the
identity. -/
theorem filterMap_eq_self_of {l : List String} {f : String → Option String}
    (h : ∀ a ∈ l, f a = some a) : l.filterMap f = l := by
  induction l with
  | nil => rfl
  | cons x xs ih =>
    simp only [List.filterMap_cons, h x (List.mem_cons_self x xs)]
    exact congrArg (x :: ·) (ih fun a ha => h a (List.mem_cons_of_mem x ha))

/-- `Object.fromEntries` keeps exactly the first-occurrence key order. -/
theorem fromEntries_keys (l : List (String × String)) :
    (fromEntries l).map Prod.fst = objKeys l := by
  rw [fromEntries, List.map_filterMap]
  refine filterMap_eq_self_of ?_
  intro k hk
  have hs := objGet_isSome_of_mem_fst l k (mem_of_mem_dedupFirst hk)
  obtain ⟨v, hv⟩ := Option.isSome_iff_exists.mp hs
  rw [hv]
  rfl

/-! ## Claims -/

/-- C1, counterexample: `main` and `components/Button/index` are both
discovered entries of the repository, they are distinct, and the compiled
output module of `main` (the umbrella, re-exporting every component)
transitively imports the compiled output module of
`components/Button/index`, so importing one entry's output can load another
entry's compiled code. -/
theorem c1_umbrella_imports_entry_counterexample :
    "main" ∈ treeEntries repoModules ∧
    "components/Button/index" ∈ treeEntries repoModules ∧
    ("main" : String) ≠ "components/Button/index" ∧
    outReaches "main" "components/Button/index" = true := by
  refine ⟨by decide, by decide, by decide, by decide⟩

/-- C1, amended: because every `lib` module is its own rollup input, an
entry's output module transitively imports another's exactly when its source
transitively imports the other's source; in particular the two component
entries never load each other, while the umbrella entry `main` does import
both components' outputs. -/
theorem c1_output_reach_mirrors_source_reach :
    (∀ a ∈ repoNames, ∀ b ∈ repoNames, outReaches a b = srcReaches a b) ∧
    outReaches "components/Button/index" "components/Text/index" = false ∧
    outReaches "components/Text/index" "components/Button/index" = false := by
  refine ⟨by decide, by decide, by decide⟩

/-- C1, witness: the amended equivalence applied at the concrete pair
(`main`, `components/Button/index`). -/
theorem c1_output_reach_mirrors_source_reach_witness :
    outReaches "main" "components/Button/index"
      = srcReaches "main" "components/Button/index" :=
  c1_output_reach_mirrors_source_reach.1 "main" (by decide)
    "components/Button/index" (by decide)

/-- C2: a compiled unit with a bound stylesheet gets exactly one
unconditional style-asset import, whose path is matched by the manifest's
`sideEffects` globs (for a `.css` source); a unit with no bound stylesheet
gets no style-asset import and no emitted style asset. -/
theorem c2_style_binding (entries : List String) (m : LibModule) :
    (∀ p, m.boundStyle = some p →
        cssImports (emitChunk entries m) = [assetPathFor p] ∧
        (extnameOf p = ".css" → sideEffectsMatch (assetPathFor p) = true)) ∧
    (m.boundStyle = none →
        cssImports (emitChunk entries m) = [] ∧ moduleAssets m = []) := by
  constructor
  · intro p hp
    refine ⟨?_, fun h => sideEffectsMatch_assetPath p h⟩
    rw [emitChunk, hp]
    rw [cssImports_append, cssImports_append, cssImports_ofImports]
    rfl
  · intro hn
    rw [emitChunk, hn]
    refine ⟨?_, by simp [moduleAssets, hn]⟩
    rw [cssImports_append, cssImports_append, cssImports_ofImports]
    rfl

/-- C2, witness: the Button unit carries exactly the import of
`assets/styles.module.css`, which the `sideEffects` declaration matches; the
umbrella unit `main` has no style import and no emitted asset. -/
theorem c2_style_binding_witness :
    (cssImports (emitChunk (treeEntries repoModules) buttonModule)
        = [assetPathFor "lib/components/Button/styles.module.css"] ∧
      sideEffectsMatch
        (assetPathFor "lib/components/Button/styles.module.css") = true) ∧
    (cssImports (emitChunk (treeEntries repoModules) mainModule) = [] ∧
      moduleAssets mainModule = []) := by
  refine ⟨?_, (c2_style_binding (treeEntries repoModules) mainModule).2 rfl⟩
  have h := (c2_style_binding (treeEntries repoModules) buttonModule).1
    "lib/components/Button/styles.module.css" rfl
  exact ⟨h.1, h.2 (by decide)⟩

/-- C3, counterexample: the manifest's `sideEffects` list is not the union
of the emitted style-asset paths: it matches `theme.css`, a path no build of
the repository's tree emits, and the list itself differs from the emitted
paths. -/
theorem c3_side_effects_not_exact_counterexample :
    sideEffectsMatch "theme.css" = true ∧
    "theme.css" ∉ emittedAssetPaths repoModules ∧
    sideEffects ≠ emittedAssetPaths repoModules := by
  refine ⟨by decide, by decide, by decide⟩

/-- C3, amended: the manifest's side-effect list is the constant
`["**/*.css"]`; every style asset a build emits (all stylesheet sources
being `.css` files) is matched by it, but it is a glob list, a strict
superset of the emitted asset paths, not exactly their union. -/
theorem c3_side_effects_cover_assets :
    sideEffects = ["**/*.css"] ∧
    ∀ ms : List LibModule,
      (∀ m ∈ ms, (m.boundStyle.all fun p => extnameOf p == ".css") = true) →
      ∀ a ∈ emittedAssetPaths ms, sideEffectsMatch a = true := by
  refine ⟨rfl, ?_⟩
  intro ms hcss a ha
  rw [emittedAssetPaths] at ha
  obtain ⟨pr, hpr, hpra⟩ := List.mem_map.mp ha
  obtain ⟨l, hl, hprl⟩ := List.mem_flatten.mp hpr
  obtain ⟨m, hm, hml⟩ := List.mem_map.mp hl
  have hmms : m ∈ ms := by
    rw [inputModules] at hm
    obtain ⟨kv, _, hfind⟩ := List.mem_filterMap.mp hm
    exact List.mem_of_find?_eq_some hfind
  rcases hb : m.boundStyle with _ | p
  · rw [← hml, moduleAssets, hb] at hprl
    simp at hprl
  · have hext : extnameOf p = ".css" := by
      have := hcss m hmms
      rw [hb] at this
      simpa using this
    have hpr2 : pr = (assetPathFor p, "scoped-css:" ++ p) := by
      rw [← hml, moduleAssets, hb] at hprl
      simpa using hprl
    rw [← hpra, hpr2]
    exact sideEffectsMatch_assetPath p hext

/-- C3, witness: the amended coverage applied to the repository's build,
whose sole emitted asset path `assets/styles.module.css` the declaration
matches. -/
theorem c3_side_effects_cover_assets_witness :
    sideEffectsMatch "assets/styles.module.css" = true :=
  c3_side_effects_cover_assets.2 repoModules (by decide)
    "assets/styles.module.css" (by decide)

/-- C4: a build run reads nothing from its environment: two invocations on
the same tree, whatever the wall clock or randomness seed, produce identical
output files and manifest (the config's file-name templates contain no hash
or timestamp and the manifest is constant). -/
theorem c4_build_deterministic (e₁ e₂ : BuildEnv) (ms : List LibModule) :
    buildRun e₁ ms = buildRun e₂ ms :=
  rfl

/-- C5, counterexample: `lib/Button.ts` and `lib/Button.tsx` are distinct
files whose logical names normalize to the same output path, yet the build
does not fail: `Object.fromEntries` silently collapses the two keys and the
build succeeds, writing output for only one of them. -/
theorem c5_no_collision_error_counterexample :
    entryKey "lib/Button.ts" = entryKey "lib/Button.tsx" ∧
    ("lib/Button.ts" : String) ≠ "lib/Button.tsx" ∧
    (runBuildScript collisionTree).isOk = true ∧
    (viteBuild collisionTree).map Prod.fst = ["package.json", "Button.js"] := by
  refine ⟨by decide, by decide, by decide, by decide⟩

/-- C5, amended: on a collision the two entries are silently collapsed into
one `input` key holding the later file, the build succeeds with no
`NamingCollisionError`, and a single output module is produced — the one
compiled from the later file. -/
theorem c5_collision_silently_collapses :
    discoveredKeys collisionFiles = ["Button"] ∧
    entryMap collisionFiles = [("Button", "/repo/lib/Button.tsx")] ∧
    inputModules collisionTree = [collisionTsxModule] ∧
    (runBuildScript collisionTree).isOk = true := by
  refine ⟨by decide, by decide, by decide, by decide⟩

/-- C6: the build script `tsc && vite build` is fail-fast: a tree with any
rejected file makes the whole build end in the type-check error with no
output produced, and a tree with no rejected file builds fully. -/
theorem c6_fail_fast (ms : List LibModule) :
    ((∃ m ∈ ms, m.hasTypeErr = true) →
        runBuildScript ms = Except.error BuildErr.typeCheck) ∧
    ((∀ m ∈ ms, m.hasTypeErr = false) →
        runBuildScript ms = Except.ok (viteBuild ms)) := by
  constructor
  · rintro ⟨m, hm, he⟩
    have hnot : ¬ tscCheck ms = true := by
      intro hall
      have := List.all_eq_true.mp hall m hm
      simp [he] at this
    rw [runBuildScript, if_neg hnot]
  · intro hall
    have hok : tscCheck ms = true :=
      List.all_eq_true.mpr (fun m hm => by simp [hall m hm])
    rw [runBuildScript, if_pos hok]

/-- C6, witness: a tree containing one rejected file aborts with the
type-check error before any output exists. -/
theorem c6_fail_fast_witness :
    runBuildScript [brokenModule] = Except.error BuildErr.typeCheck :=
  (c6_fail_fast [brokenModule]).1
    ⟨brokenModule, List.mem_singleton_self brokenModule, rfl⟩

/-- C7, counterexample: discovery passes `glob.sync`'s traversal order
through unsorted — a traversal yielding `lib/b.ts` before `lib/a.ts`
produces the unsorted entry list `["b", "a"]` — and an empty match set
yields an empty input object rather than failing with a `DiscoveryError`. -/
theorem c7_discovery_unsorted_counterexample :
    discoveredKeys ["lib/b.ts", "lib/a.ts"] = ["b", "a"] ∧
    pathsSorted (discoveredKeys ["lib/b.ts", "lib/a.ts"]) = false ∧
    entryMap [] = [] := by
  refine ⟨by decide, by decide, by decide⟩

/-- C7, amended: the discovered entry list is exactly the matched files'
keys in `glob.sync`'s traversal order with duplicates collapsed to their
first occurrence — deterministic given that traversal, but not sorted by the
config, and total (no `DiscoveryError` exists; no match gives an empty
map). -/
theorem c7_discovery_order_passthrough (files : List String) :
    discoveredKeys files = dedupFirst (files.map entryKey) := by
  rw [discoveredKeys, entryMap, fromEntries_keys, objKeys, List.map_map]
  rfl

/-- C8: an import identifier is classified External exactly when it is an
exact member of the configured `external` list, Bundle otherwise, and the
classification is the same for every entry of the build. -/
theorem c8_classifier_exact_uniform (id : String) :
    (classify id = Dep.external ↔ id ∈ externals) ∧
    (∀ e₁ e₂ : String, classifyFor e₁ id = classifyFor e₂ id) := by
  refine ⟨?_, fun _ _ => rfl⟩
  rw [classify]
  by_cases h : id ∈ externals
  · simp [h]
  · simp [h]

/-- C9: the asset namer `assets/[name][extname]` keeps only the base name,
so the Button and Text stylesheets — distinct sources in different
directories with the same base file name — map to one and the same output
asset path. -/
theorem c9_flat_asset_naming_collides :
    assetPathFor "lib/components/Button/styles.module.css"
        = "assets/styles.module.css" ∧
    assetPathFor "lib/components/Text/styles.module.css"
        = "assets/styles.module.css" ∧
    ("lib/components/Button/styles.module.css" : String)
        ≠ "lib/components/Text/styles.module.css" := by
  refine ⟨by decide, by decide, by decide⟩

/-- C10: the asset namer preserves the `.css` extension, so every style
asset emitted from a `.css` stylesheet has a path the side-effect glob
`**/*.css` matches: no style asset escapes the side-effect declaration. -/
theorem c10_assets_covered_by_glob (p : String) (h : extnameOf p = ".css") :
    sideEffectsMatch (assetPathFor p) = true :=
  sideEffectsMatch_assetPath p h

/-- C10, witness: the invariant at the Button stylesheet. -/
theorem c10_assets_covered_by_glob_witness :
    extnameOf "lib/components/Button/styles.module.css" = ".css" ∧
    sideEffectsMatch
      (assetPathFor "lib/components/Button/styles.module.css") = true :=
  ⟨by decide, c10_assets_covered_by_glob _ (by decide)⟩

end ViteLib
